import Mathlib

/-
Verification of the `transient` crate: the erasure wrappers in
`src/erased.rs` (structs `Erased`, `ErasedRef`, `ErasedMut`) and the
generics-processing pipeline of the derive crate (`derive/src/lib.rs`).

Modelling conventions.

The trait `MakeStatic` (declared in the crate root, outside `src/erased.rs`)
associates to an erasable type `T` with true lifetime `src` a canonical
counterpart `T::Static` in which the lifetime parameter is replaced by the
unbounded (static) lifetime.  Its conversions (`make_static_owned`,
`make_static_ref`, `make_static_mut`, `from_static_owned`, `from_static_ref`,
`from_static_mut`) are unchecked, representation-preserving reinterpretations:
per the spec they are bit-for-bit identity on the underlying value and perform
no runtime check.  We therefore model an erasable type as a pair of an
underlying type code (`base`) and its region (`src`), model the value of a
type by its representation (a natural number standing for the bit pattern),
and model the conversions as the identity on representations.

A `dyn Any` (boxed or borrowed) is modelled as `DynAny`: the runtime `TypeId`
of the concrete stored type together with the representation of the stored
value.  `downcast`, `downcast_ref` and `downcast_mut` compare the stored tag
with the `TypeId` of the requested type, exactly as Rust's `Any` does.
-/

set_option autoImplicit false

namespace Transient

/-- A region (Rust lifetime): either the unbounded `static` region or a
bounded scope identified by a number. -/
inductive Region where
  | static : Region
  | scoped (n : Nat) : Region
deriving DecidableEq, Repr

/-- An erasable type (an implementor of `MakeStatic`): an underlying type
constructor identified by `base`, instantiated at the true region `src`.
Modelled from the spec: the `MakeStatic` trait itself lives in the crate
root, which is not among the provided sources; the spec stipulates that an
erasable type has at most one region parameter and that its canonical
counterpart differs only in that region. -/
structure Ty where
  base : Nat
  src : Region
deriving DecidableEq, Repr

/-- `T::Static`: the same type with its region parameter replaced by the
unbounded region. -/
def Ty.toStatic (t : Ty) : Ty :=
  { t with src := Region.static }

/-- A runtime type identifier, as produced by `TypeId::of::<U>` for a
static type `U`: distinct static types have distinct identifiers. -/
structure TypeId where
  code : Nat
  region : Region
deriving DecidableEq, Repr

/-- `TypeId::of::<U>()` for the type `U`. -/
def typeIdOf (t : Ty) : TypeId :=
  ⟨t.base, t.src⟩

/-- A `dyn Any` value (boxed or behind a reference): the `TypeId` of the
concrete stored type plus the representation of the stored value. -/
structure DynAny where
  tag : TypeId
  val : Nat
deriving DecidableEq, Repr

/-- A `Box<U>` holding a value of representation `deref`. -/
structure Box where
  deref : Nat
deriving DecidableEq, Repr

/-- `<dyn Any>::is::<U>()`: compares the stored concrete tag with the
`TypeId` of `U`. -/
def DynAny.isOf (d : DynAny) (target : Ty) : Bool :=
  decide (d.tag = typeIdOf target)

/-- `Box<dyn Any>::downcast::<U>()`: on tag match returns the payload as a
`Box<U>`, otherwise returns the original `Box<dyn Any>` in the error. -/
def DynAny.downcast (d : DynAny) (target : Ty) : Except DynAny Box :=
  if d.tag = typeIdOf target then Except.ok ⟨d.val⟩ else Except.error d

/-- `<dyn Any>::downcast_ref::<U>()`: a shared reference to the payload on
tag match. -/
def DynAny.downcast_ref (d : DynAny) (target : Ty) : Option Nat :=
  if d.tag = typeIdOf target then some d.val else none

/-- `<dyn Any>::downcast_mut::<U>()`: a mutable reference to the payload on
tag match. -/
def DynAny.downcast_mut (d : DynAny) (target : Ty) : Option Nat :=
  if d.tag = typeIdOf target then some d.val else none

/-- The struct `Erased<'src>`: a `Box<dyn Any>` holding a value transmuted
to static, plus the phantom true region `src`. -/
structure Erased where
  payload : DynAny
  src : Region
deriving DecidableEq, Repr

/-- `Erased::new::<T>(value)`: boxes the value and extends its lifetime via
`make_static_owned` (identity on the representation), so the stored `dyn Any`
has the concrete type `T::Static`. -/
def Erased.new (t : Ty) (v : Nat) : Erased :=
  ⟨⟨typeIdOf t.toStatic, v⟩, t.src⟩

/-- `Erased::from_boxed::<T>(boxed)`: same as `new` starting from a
`Box<T>`. -/
def Erased.from_boxed (t : Ty) (bx : Box) : Erased :=
  ⟨⟨typeIdOf t.toStatic, bx.deref⟩, t.src⟩

/-- `Erased::restore_box::<T>`: downcasts the payload to `T::Static`; on
failure rebuilds `Erased(inner, PhantomData)` in the `Err` variant; on
success applies `from_static_owned` (identity on the representation). -/
def Erased.restore_box (e : Erased) (t : Ty) : Except Erased Box :=
  match e.payload.downcast t.toStatic with
  | Except.error inner => Except.error ⟨inner, e.src⟩
  | Except.ok restored => Except.ok restored

/-- `Erased::restore::<T>`: `Ok(*self.restore_box::<T>()?)`. -/
def Erased.restore (e : Erased) (t : Ty) : Except Erased Nat :=
  match e.restore_box t with
  | Except.error err => Except.error err
  | Except.ok bx => Except.ok bx.deref

/-- `Erased::type_id`: the `TypeId` of the wrapped value. -/
def Erased.type_id (e : Erased) : TypeId :=
  e.payload.tag

/-- `Erased::is::<T>`: `(&*self.0).is::<T::Static>()`. -/
def Erased.is (e : Erased) (t : Ty) : Bool :=
  e.payload.isOf t.toStatic

/-- The struct `ErasedRef<'borrow, 'src>`: a shared borrow of a `dyn Any`
whose pointee was transmuted to static, plus the borrow region and the
phantom true region `src`. -/
structure ErasedRef where
  payload : DynAny
  borrow : Region
  src : Region
deriving DecidableEq, Repr

/-- `ErasedRef::new::<T>(value)`: wraps `value.make_static_ref()` (identity
on the pointee representation), so the pointee has concrete type
`T::Static`. -/
def ErasedRef.new (t : Ty) (v : Nat) (b : Region) : ErasedRef :=
  ⟨⟨typeIdOf t.toStatic, v⟩, b, t.src⟩

/-- `ErasedRef::restore::<T>`: `self.0.downcast_ref::<T::Static>().ok_or(self)?`
followed by `from_static_ref` (identity on the pointee representation). -/
def ErasedRef.restore (e : ErasedRef) (t : Ty) : Except ErasedRef Nat :=
  match e.payload.downcast_ref t.toStatic with
  | none => Except.error e
  | some restored => Except.ok restored

/-- `ErasedRef::type_id`: the `TypeId` of the pointee. -/
def ErasedRef.type_id (e : ErasedRef) : TypeId :=
  e.payload.tag

/-- `ErasedRef::is::<T>`: `self.0.is::<T::Static>()`. -/
def ErasedRef.is (e : ErasedRef) (t : Ty) : Bool :=
  e.payload.isOf t.toStatic

/-- Result of a Rust computation that may abort the process (an `unwrap`
of `None` panics); `panicked` marks that unrecoverable outcome. -/
inductive PanicOr (α : Type) where
  | panicked : PanicOr α
  | ok (a : α) : PanicOr α
deriving DecidableEq, Repr

/-- Whether a `PanicOr` outcome is the panic. -/
def PanicOr.isPanic {α : Type} : PanicOr α → Bool
  | PanicOr.panicked => true
  | PanicOr.ok _ => false

/-- The struct `ErasedMut<'borrow, 'src>`: an exclusive borrow of a
`dyn Any` whose pointee was transmuted to static, plus the borrow region and
the phantom true region `src`. -/
structure ErasedMut where
  payload : DynAny
  borrow : Region
  src : Region
deriving DecidableEq, Repr

/-- `ErasedMut::new::<T>(value)`: wraps `value.make_static_mut()` (identity
on the pointee representation). -/
def ErasedMut.new (t : Ty) (v : Nat) (b : Region) : ErasedMut :=
  ⟨⟨typeIdOf t.toStatic, v⟩, b, t.src⟩

/-- `ErasedMut::is::<T>`: `(&*self.0).is::<T::Static>()`. -/
def ErasedMut.is (e : ErasedMut) (t : Ty) : Bool :=
  e.payload.isOf t.toStatic

/-- `ErasedMut::restore::<T>`: guarded by `is::<T>`, then
`self.0.downcast_mut::<T::Static>().unwrap()`; the `unwrap` of a `None`
would abort, which we model explicitly as `panicked`. -/
def ErasedMut.restore (e : ErasedMut) (t : Ty) : PanicOr (Except ErasedMut Nat) :=
  if e.is t then
    match e.payload.downcast_mut t.toStatic with
    | some restored => PanicOr.ok (Except.ok restored)
    | none => PanicOr.panicked
  else
    PanicOr.ok (Except.error e)

/-- `ErasedMut::type_id`: the `TypeId` of the pointee. -/
def ErasedMut.type_id (e : ErasedMut) : TypeId :=
  e.payload.tag

/-- `Erased::inner`, only implemented on `Erased<'static>`: the proof
argument records that the method exists only at the specialization whose
true region is the unbounded region. -/
def Erased.inner (e : Erased) (_ : e.src = Region.static) : DynAny :=
  e.payload

/-- `Erased::inner_mut`, only implemented on `Erased<'static>`. -/
def Erased.inner_mut (e : Erased) (_ : e.src = Region.static) : DynAny :=
  e.payload

/-- `Erased::into_inner`, only implemented on `Erased<'static>`: moves the
wrapped `Box<dyn Any>` out. -/
def Erased.into_inner (e : Erased) (_ : e.src = Region.static) : DynAny :=
  e.payload

/-- `ErasedRef::inner`, only implemented on `ErasedRef<'borrow, 'static>`. -/
def ErasedRef.inner (e : ErasedRef) (_ : e.src = Region.static) : DynAny :=
  e.payload

/-- `ErasedMut::inner`, only implemented on `ErasedMut<'borrow, 'static>`. -/
def ErasedMut.inner (e : ErasedMut) (_ : e.src = Region.static) : DynAny :=
  e.payload

/-- `ErasedMut::inner_mut`, only implemented on `ErasedMut<'borrow, 'static>`. -/
def ErasedMut.inner_mut (e : ErasedMut) (_ : e.src = Region.static) : DynAny :=
  e.payload

/-- C1.  Round-trip: constructing a wrapper from a value of type `t` and
restoring with the same target type returns the original value, for the
owning wrapper (`Erased::new` then `Erased::restore`), the shared-borrow
wrapper (`ErasedRef::new` then `ErasedRef::restore`, yielding a reference
to the original value), and the mutable-borrow wrapper (`ErasedMut::new`
then `ErasedMut::restore`). -/
theorem roundtrip_restore (t : Ty) (v : Nat) (b : Region) :
    (Erased.new t v).restore t = Except.ok v ∧
    (ErasedRef.new t v b).restore t = Except.ok v ∧
    (ErasedMut.new t v b).restore t = PanicOr.ok (Except.ok v) := by
  refine ⟨?_, ?_, ?_⟩
  · simp [Erased.new, Erased.restore, Erased.restore_box, DynAny.downcast]
  · simp [ErasedRef.new, ErasedRef.restore, DynAny.downcast_ref]
  · simp [ErasedMut.new, ErasedMut.restore, ErasedMut.is, DynAny.isOf,
      DynAny.downcast_mut]

/-- The runtime identifier is injective: two types have the same `TypeId`
exactly when they are the same type. -/
theorem typeIdOf_inj {x y : Ty} : typeIdOf x = typeIdOf y ↔ x = y := by
  cases x; cases y; simp [typeIdOf]

/-- Two types have equal static counterparts exactly when their underlying
type constructors agree. -/
theorem toStatic_eq_iff {x y : Ty} : x.toStatic = y.toStatic ↔ x.base = y.base := by
  cases x; cases y; simp [Ty.toStatic]

/-- C2.  Restore succeeds exactly on tag match: for a wrapper built from a
value of type `t` and any requested type `u` (with the same true region, as
the `MakeStatic` bound on `restore` requires), the `Ok` branch is taken
exactly when the stored tag equals the tag of `u::Static`, equivalently when
`is` answers true; whenever the static counterparts differ, `restore_box`
(resp. `ErasedRef::restore`) yields the `Err` branch carrying the wrapper
unchanged and `is` answers false. -/
theorem restore_ok_iff_tag (t u : Ty) (v : Nat) (b : Region) (_hu : u.src = t.src) :
    ((∃ bx, (Erased.new t v).restore_box u = Except.ok bx) ↔ (Erased.new t v).is u = true) ∧
    ((Erased.new t v).is u = true ↔ typeIdOf u.toStatic = typeIdOf t.toStatic) ∧
    (u.toStatic ≠ t.toStatic →
      (Erased.new t v).restore_box u = Except.error (Erased.new t v) ∧
      (Erased.new t v).is u = false ∧
      (ErasedRef.new t v b).restore u = Except.error (ErasedRef.new t v b) ∧
      (ErasedRef.new t v b).is u = false) := by
  refine ⟨?_, ?_, fun hne => ?_⟩
  · by_cases h : typeIdOf t.toStatic = typeIdOf u.toStatic <;>
      simp [Erased.new, Erased.restore_box, Erased.is, DynAny.isOf, DynAny.downcast, h]
  · by_cases h : typeIdOf t.toStatic = typeIdOf u.toStatic <;>
      simp [Erased.new, Erased.is, DynAny.isOf, h, eq_comm]
  · have h : ¬ typeIdOf t.toStatic = typeIdOf u.toStatic := by
      intro hh
      exact hne (typeIdOf_inj.mp hh.symm)
    refine ⟨?_, ?_, ?_, ?_⟩ <;>
      simp [Erased.new, Erased.restore_box, Erased.is, ErasedRef.new, ErasedRef.restore,
        ErasedRef.is, DynAny.isOf, DynAny.downcast, DynAny.downcast_ref, h]

/-- C2 witness: a wrapper holding type code 0 probed at type code 1 with the
same region takes the rejected branch with the wrapper intact. -/
theorem restore_ok_iff_tag_witness :
    (Erased.new ⟨0, Region.scoped 0⟩ 5).restore_box ⟨1, Region.scoped 0⟩ =
        Except.error (Erased.new ⟨0, Region.scoped 0⟩ 5) ∧
    (Erased.new ⟨0, Region.scoped 0⟩ 5).is ⟨1, Region.scoped 0⟩ = false ∧
    (ErasedRef.new ⟨0, Region.scoped 0⟩ 5 (Region.scoped 1)).restore ⟨1, Region.scoped 0⟩ =
        Except.error (ErasedRef.new ⟨0, Region.scoped 0⟩ 5 (Region.scoped 1)) ∧
    (ErasedRef.new ⟨0, Region.scoped 0⟩ 5 (Region.scoped 1)).is ⟨1, Region.scoped 0⟩ = false :=
  (restore_ok_iff_tag ⟨0, Region.scoped 0⟩ ⟨1, Region.scoped 0⟩ 5 (Region.scoped 1)
    rfl).2.2 (by decide)

/-- C3.  No loss on failure: a failed restore at a wrong target type returns
the wrapper with its payload unchanged, and a subsequent restore at the
correct type on that returned wrapper still yields the original value, for
the owning wrapper and the mutable-borrow wrapper. -/
theorem no_loss_on_failure (t u : Ty) (v : Nat) (b : Region)
    (hne : u.toStatic ≠ t.toStatic) :
    (Erased.new t v).restore u = Except.error (Erased.new t v) ∧
    (Erased.new t v).restore t = Except.ok v ∧
    (ErasedMut.new t v b).restore u = PanicOr.ok (Except.error (ErasedMut.new t v b)) ∧
    (ErasedMut.new t v b).restore t = PanicOr.ok (Except.ok v) := by
  have h : ¬ typeIdOf t.toStatic = typeIdOf u.toStatic := by
    intro hh
    exact hne (typeIdOf_inj.mp hh.symm)
  refine ⟨?_, ?_, ?_, ?_⟩ <;>
    simp [Erased.new, Erased.restore, Erased.restore_box, ErasedMut.new, ErasedMut.restore,
      ErasedMut.is, DynAny.isOf, DynAny.downcast, DynAny.downcast_mut, h]

/-- C3 witness: after the failed restore at type code 1, restoring the
returned wrapper at type code 0 recovers the original value 5. -/
theorem no_loss_on_failure_witness :
    (Erased.new ⟨0, Region.scoped 0⟩ 5).restore ⟨1, Region.scoped 0⟩ =
        Except.error (Erased.new ⟨0, Region.scoped 0⟩ 5) ∧
    (Erased.new ⟨0, Region.scoped 0⟩ 5).restore ⟨0, Region.scoped 0⟩ = Except.ok 5 ∧
    (ErasedMut.new ⟨0, Region.scoped 0⟩ 5 (Region.scoped 1)).restore ⟨1, Region.scoped 0⟩ =
        PanicOr.ok (Except.error (ErasedMut.new ⟨0, Region.scoped 0⟩ 5 (Region.scoped 1))) ∧
    (ErasedMut.new ⟨0, Region.scoped 0⟩ 5 (Region.scoped 1)).restore ⟨0, Region.scoped 0⟩ =
        PanicOr.ok (Except.ok 5) :=
  no_loss_on_failure ⟨0, Region.scoped 0⟩ ⟨1, Region.scoped 0⟩ 5 (Region.scoped 1) (by decide)

/-- C4.  Totality: `ErasedMut::restore` never reaches the process-aborting
`unwrap` — its internal `unwrap` is unreachable because it is guarded by the
preceding `is` check, whose success coincides exactly with `downcast_mut`
returning a value — so restore always returns a well-defined `Ok` or `Err`
result; and construction (`Erased::new` / `Erased::from_boxed`) is a total
function with no failure mode, the two constructors agreeing on the same
value. -/
theorem restore_never_panics (e : ErasedMut) (u t : Ty) (v : Nat) :
    (e.restore u).isPanic = false ∧
    (∃ r, e.restore u = PanicOr.ok r) ∧
    (e.is u = true ↔ (e.payload.downcast_mut u.toStatic).isSome = true) ∧
    Erased.from_boxed t ⟨v⟩ = Erased.new t v := by
  by_cases h : e.payload.tag = typeIdOf u.toStatic <;>
    simp [ErasedMut.restore, ErasedMut.is, DynAny.isOf, DynAny.downcast_mut, h,
      PanicOr.isPanic, Erased.from_boxed, Erased.new]

/-- C5.  Tag blindness to region: `type_id` returns exactly the identifier
of the stored static counterpart, so erasing the same underlying type at two
different true regions yields wrappers with equal tags; `is` ignores the
region of the probed type, and such region-differing types are
interchangeable downcast targets. -/
theorem tag_blind_to_region (t1 t2 : Ty) (v w : Nat) (b : Region)
    (hbase : t1.base = t2.base) :
    (Erased.new t1 v).type_id = typeIdOf t1.toStatic ∧
    (ErasedRef.new t1 v b).type_id = typeIdOf t1.toStatic ∧
    (ErasedMut.new t1 v b).type_id = typeIdOf t1.toStatic ∧
    (Erased.new t1 v).type_id = (Erased.new t2 w).type_id ∧
    (ErasedRef.new t1 v b).type_id = (ErasedRef.new t2 w b).type_id ∧
    (Erased.new t1 v).is t2 = true ∧
    (ErasedRef.new t1 v b).is t2 = true ∧
    (Erased.new t1 v).restore t2 = Except.ok v := by
  refine ⟨rfl, rfl, rfl, ?_, ?_, ?_, ?_, ?_⟩ <;>
    simp [Erased.new, ErasedRef.new, Erased.type_id, ErasedRef.type_id, Erased.is,
      ErasedRef.is, DynAny.isOf, Erased.restore, Erased.restore_box, DynAny.downcast,
      typeIdOf, Ty.toStatic, hbase]

/-- C5 witness: the same type code erased at a bounded region and at the
unbounded region produce equal tags, and the bounded-region wrapper answers
true for (and restores at) the unbounded-region instantiation. -/
theorem tag_blind_to_region_witness :
    (Erased.new ⟨0, Region.scoped 0⟩ 5).type_id = (Erased.new ⟨0, Region.static⟩ 9).type_id ∧
    (Erased.new ⟨0, Region.scoped 0⟩ 5).is ⟨0, Region.static⟩ = true ∧
    (Erased.new ⟨0, Region.scoped 0⟩ 5).restore ⟨0, Region.static⟩ = Except.ok 5 := by
  have h := tag_blind_to_region ⟨0, Region.scoped 0⟩ ⟨0, Region.static⟩ 5 9
    (Region.scoped 1) rfl
  exact ⟨h.2.2.2.1, h.2.2.2.2.2.1, h.2.2.2.2.2.2.2⟩

/-- C6.  Unbounded-region direct access: the access-without-restore methods
(`inner`, `inner_mut`, `into_inner` on `Erased`; `inner` on `ErasedRef`;
`inner` and `inner_mut` on `ErasedMut`) exist only at the specialization
whose true region is the unbounded region (witnessed by their proof
argument), and on such a wrapper they expose exactly the value that restore
at the stored type returns. -/
theorem unbounded_direct_access (t : Ty) (v : Nat) (b : Region)
    (h : t.src = Region.static) :
    ((Erased.new t v).inner h).val = v ∧
    ((Erased.new t v).inner_mut h).val = v ∧
    ((Erased.new t v).into_inner h).val = v ∧
    (Erased.new t v).restore t = Except.ok v ∧
    ((ErasedRef.new t v b).inner h).val = v ∧
    (ErasedRef.new t v b).restore t = Except.ok v ∧
    ((ErasedMut.new t v b).inner h).val = v ∧
    ((ErasedMut.new t v b).inner_mut h).val = v ∧
    (ErasedMut.new t v b).restore t = PanicOr.ok (Except.ok v) := by
  refine ⟨rfl, rfl, rfl, ?_, rfl, ?_, rfl, rfl, ?_⟩
  · simp [Erased.new, Erased.restore, Erased.restore_box, DynAny.downcast]
  · simp [ErasedRef.new, ErasedRef.restore, DynAny.downcast_ref]
  · simp [ErasedMut.new, ErasedMut.restore, ErasedMut.is, DynAny.isOf, DynAny.downcast_mut]

/-- C6 witness: for a wrapper whose true region is the unbounded region,
`inner` exposes the same value 7 that restore returns. -/
theorem unbounded_direct_access_witness :
    ((Erased.new ⟨0, Region.static⟩ 7).inner rfl).val = 7 ∧
    (Erased.new ⟨0, Region.static⟩ 7).restore ⟨0, Region.static⟩ = Except.ok 7 := by
  have h := unbounded_direct_access ⟨0, Region.static⟩ 7 (Region.scoped 0) rfl
  exact ⟨h.1, h.2.2.2.1⟩

/-- C10.  The boxed and unboxed restore variants agree: `Erased::restore`
is `restore_box` followed by unboxing — it returns `Ok v` exactly when
`restore_box` returns `Ok` of a box holding `v`, and returns `Err` with the
same rebuilt wrapper in exactly the same cases. -/
theorem restore_agrees_with_restore_box (e : Erased) (t : Ty) :
    e.restore t = Except.map Box.deref (e.restore_box t) ∧
    (∀ v, e.restore t = Except.ok v ↔ ∃ bx, e.restore_box t = Except.ok bx ∧ bx.deref = v) ∧
    (∀ e2, e.restore t = Except.error e2 ↔ e.restore_box t = Except.error e2) := by
  cases hbx : e.restore_box t <;>
    simp [Erased.restore, hbx, Except.map]

/-
Embedding of the derive crate (`derive/src/lib.rs`).  The input declaration
is abstracted to its generic-parameter list (`syn::Generics`); a generic
parameter is a lifetime parameter, a type parameter with its bound list, or
a const parameter.  Token-level output is abstracted to the data the quoted
template interpolates: the impl generics, the trait lifetime argument, the
type name, and the two type-reference argument lists (Rust`s `TypeGenerics`
prints only parameter names, never bounds).  Lifetime names are stored
without the leading tick.
-/

/-- A generic parameter of the input declaration (`syn::GenericParam`). -/
inductive GenericParam where
  | lifetime (n : String) : GenericParam
  | type (n : String) (bounds : List String) : GenericParam
  | const (n : String) : GenericParam
deriving DecidableEq, Repr

/-- Whether a parameter is a lifetime parameter. -/
def GenericParam.isLifetime : GenericParam → Bool
  | GenericParam.lifetime _ => true
  | _ => false

/-- How a parameter appears in a type reference: just its name. -/
def GenericParam.asArg : GenericParam → String
  | GenericParam.lifetime n => n
  | GenericParam.type n _ => n
  | GenericParam.const n => n

/-- The bound `static` pushed onto type parameters (`static_type_bound`). -/
def static_type_bound : String := "static"

/-- The lifetime `static` (`static_lifetime`). -/
def static_lifetime : String := "static"

/-- The message of the multi-lifetime rejection error. -/
def lifetimeErrorMsg : String := "At most one lifetime parameter is allowed!"

/-- A generation error: the span (here: the name of the offending
parameter) and the message. -/
structure GenError where
  loc : String
  msg : String
deriving DecidableEq, Repr

/-- `process_param`: a lifetime parameter among the remaining parameters is
rejected with an error at its span; a type parameter gets the static bound
pushed; anything else is kept unchanged. -/
def process_param : GenericParam → Except GenError GenericParam
  | GenericParam.lifetime n => Except.error ⟨n, lifetimeErrorMsg⟩
  | GenericParam.type n bs => Except.ok (GenericParam.type n (bs ++ [static_type_bound]))
  | p => Except.ok p

/-- The struct `Params`: the impl lifetime, the original generics (used for
the type reference and where clause), the impl generics, and the generics of
the `Static` associated type. -/
structure Params where
  lifetime : String
  original : List GenericParam
  impl_ : List GenericParam
  static_ : List GenericParam
deriving DecidableEq, Repr

/-- `Params::empty`: the static lifetime and three empty parameter lists. -/
def Params.empty : Params :=
  ⟨static_lifetime, [], [], []⟩

/-- The loop over the parameters after the first: each parameter`s
unmodified clone goes to the static list and `process_param` rewrites the
impl copy, short-circuiting on error.  Returns the impl tail and the static
tail. -/
def process_params_tail :
    List GenericParam → Except GenError (List GenericParam × List GenericParam)
  | [] => Except.ok ([], [])
  | p :: rest =>
    match process_param p with
    | Except.error e => Except.error e
    | Except.ok p2 =>
      match process_params_tail rest with
      | Except.error e => Except.error e
      | Except.ok (implTail, staticTail) => Except.ok (p2 :: implTail, p :: staticTail)

/-- `process_generics`: empty input yields `Params::empty`; otherwise the
first parameter supplies the impl lifetime (a leading lifetime parameter is
kept in the impl list and replaced by the static lifetime in the static
list; a leading type parameter gets the static bound in the impl list and
its unmodified clone in the static list), and the remaining parameters go
through the loop. -/
def process_generics (generics : List GenericParam) : Except GenError Params :=
  match generics with
  | [] => Except.ok Params.empty
  | first :: rest =>
    let seed : String × GenericParam × GenericParam :=
      match first with
      | GenericParam.lifetime n =>
        (n, GenericParam.lifetime n, GenericParam.lifetime static_lifetime)
      | GenericParam.type n bs =>
        (static_lifetime, GenericParam.type n (bs ++ [static_type_bound]),
          GenericParam.type n bs)
      | p => (static_lifetime, p, p)
    match process_params_tail rest with
    | Except.error e => Except.error e
    | Except.ok (implTail, staticTail) =>
      Except.ok ⟨seed.1, generics, seed.2.1 :: implTail, seed.2.2 :: staticTail⟩

/-- The data interpolated into the emitted implementation:
`impl #implGenerics MakeStatic<#traitLifetime> for #typeName #typeArgs`
with `type Static = #typeName #staticTypeArgs`. -/
structure ImplTokens where
  implGenerics : List GenericParam
  traitLifetime : String
  typeName : String
  typeArgs : List String
  staticTypeArgs : List String
deriving DecidableEq, Repr

/-- `generate_impl`: runs `process_generics` on the declaration`s generics
and interpolates the resulting parameter lists into the impl template. -/
def generate_impl (name : String) (generics : List GenericParam) :
    Except GenError ImplTokens :=
  match process_generics generics with
  | Except.error e => Except.error e
  | Except.ok ps =>
    Except.ok ⟨ps.impl_, ps.lifetime, name, ps.original.map GenericParam.asArg,
      ps.static_.map GenericParam.asArg⟩

/-- Number of lifetime parameters of a declaration. -/
def countLifetimes (l : List GenericParam) : Nat :=
  (l.filter GenericParam.isLifetime).length

/-- Rust syntax requires every lifetime parameter of a declaration to come
before all type and const parameters; inputs to the derive satisfy this. -/
def lifetimesFirst : List GenericParam → Bool
  | [] => true
  | p :: rest =>
    if p.isLifetime then lifetimesFirst rest
    else rest.all fun q => !q.isLifetime

/-- The name of the second lifetime parameter of a declaration (the first
offending one when there is more than one). -/
def secondLifetime (gs : List GenericParam) : String :=
  (gs.filterMap fun p =>
    match p with
    | GenericParam.lifetime n => some n
    | _ => none).getD 1 ""

/-- The impl-side rewrite applied to each parameter. -/
def addStaticBound : GenericParam → GenericParam
  | GenericParam.type n bs => GenericParam.type n (bs ++ [static_type_bound])
  | p => p

/-- The parameter carries the static constraint (vacuous for lifetime and
const parameters, which need none). -/
def staticConstrained : GenericParam → Prop
  | GenericParam.type _ bs => static_type_bound ∈ bs
  | _ => True

/-- The impl lifetime contributed by the first parameter. -/
def headLifetime : GenericParam → String
  | GenericParam.lifetime n => n
  | _ => static_lifetime

/-- The static-list entry contributed by the first parameter. -/
def staticHead : GenericParam → GenericParam
  | GenericParam.lifetime _ => GenericParam.lifetime static_lifetime
  | p => p

/-- Whether generation succeeded. -/
def isOkResult {ε α : Type} : Except ε α → Bool
  | Except.ok _ => true
  | Except.error _ => false

/-- On a lifetime-free tail, the loop succeeds and returns the impl rewrite
of the list together with the unmodified list. -/
theorem process_params_tail_of_no_lifetime (l : List GenericParam)
    (h : ∀ p ∈ l, p.isLifetime = false) :
    process_params_tail l = Except.ok (l.map addStaticBound, l) := by
  induction l with
  | nil => rfl
  | cons p rest ih =>
    have hp := h p (List.mem_cons_self p rest)
    have hr : ∀ q ∈ rest, q.isLifetime = false :=
      fun q hq => h q (List.mem_cons_of_mem _ hq)
    cases p with
    | lifetime n => simp [GenericParam.isLifetime] at hp
    | type n bs => simp [process_params_tail, process_param, addStaticBound, ih hr]
    | const n => simp [process_params_tail, process_param, addStaticBound, ih hr]

/-- A successful loop run always has this shape. -/
theorem process_params_tail_ok_shape (l : List GenericParam) :
    ∀ pr, process_params_tail l = Except.ok pr → pr = (l.map addStaticBound, l) := by
  induction l with
  | nil =>
    intro pr h
    simp [process_params_tail] at h
    simp [h.symm]
  | cons p rest ih =>
    intro pr h
    cases hrec : process_params_tail rest with
    | error e =>
      cases p <;> simp [process_params_tail, process_param, hrec] at h
    | ok pr2 =>
      obtain ⟨implTail, staticTail⟩ := pr2
      have hsh := ih (implTail, staticTail) hrec
      rw [Prod.mk.injEq] at hsh
      cases p with
      | lifetime n => simp [process_params_tail, process_param] at h
      | type n bs =>
        simp [process_params_tail, process_param, hrec] at h
        simp [h.symm, addStaticBound, hsh.1, hsh.2]
      | const n =>
        simp [process_params_tail, process_param, hrec] at h
        simp [h.symm, addStaticBound, hsh.1, hsh.2]

/-- A successful run of `process_generics` on a nonempty list always has
this shape. -/
theorem process_generics_ok_shape (first : GenericParam) (rest : List GenericParam)
    (ps : Params) (h : process_generics (first :: rest) = Except.ok ps) :
    ps = ⟨headLifetime first, first :: rest,
      addStaticBound first :: rest.map addStaticBound, staticHead first :: rest⟩ := by
  cases hrec : process_params_tail rest with
  | error e =>
    cases first <;> simp [process_generics, hrec] at h
  | ok pr2 =>
    obtain ⟨implTail, staticTail⟩ := pr2
    have hsh := process_params_tail_ok_shape rest (implTail, staticTail) hrec
    rw [Prod.mk.injEq] at hsh
    cases first <;>
      simp [process_generics, hrec] at h <;>
      simp [h.symm, headLifetime, staticHead, addStaticBound, hsh.1, hsh.2]

/-- A declaration has no lifetime parameter exactly when every parameter is
a non-lifetime parameter. -/
theorem countLifetimes_eq_zero_iff (l : List GenericParam) :
    countLifetimes l = 0 ↔ ∀ p ∈ l, p.isLifetime = false := by
  simp [countLifetimes, List.length_eq_zero, List.filter_eq_nil_iff]

/-- Counting lifetimes across a leading lifetime parameter. -/
theorem countLifetimes_cons_lifetime (n : String) (rest : List GenericParam) :
    countLifetimes (GenericParam.lifetime n :: rest) = countLifetimes rest + 1 := by
  simp [countLifetimes, List.filter, GenericParam.isLifetime]

/-- Counting lifetimes across a leading non-lifetime parameter. -/
theorem countLifetimes_cons_other (p : GenericParam) (rest : List GenericParam)
    (hp : p.isLifetime = false) :
    countLifetimes (p :: rest) = countLifetimes rest := by
  simp [countLifetimes, List.filter, hp]

/-- The impl rewrite always produces a static-constrained parameter. -/
theorem staticConstrained_addStaticBound (p : GenericParam) :
    staticConstrained (addStaticBound p) := by
  cases p <;> simp [addStaticBound, staticConstrained]

/-- The impl rewrite preserves the parameter name. -/
theorem asArg_addStaticBound (p : GenericParam) :
    (addStaticBound p).asArg = p.asArg := by
  cases p <;> rfl

/-- C7.  Generator rejection of multi-region declarations: on well-formed
input (lifetimes first, as Rust syntax guarantees), a declaration with zero
or one lifetime parameter is accepted, while a declaration with more than
one lifetime parameter is rejected with a generation error whose span is the
offending (second) lifetime parameter, emitting no implementation. -/
theorem reject_multi_lifetime (gs : List GenericParam)
    (hw : lifetimesFirst gs = true) :
    (countLifetimes gs ≤ 1 → isOkResult (process_generics gs) = true) ∧
    (2 ≤ countLifetimes gs →
      process_generics gs = Except.error ⟨secondLifetime gs, lifetimeErrorMsg⟩ ∧
      GenericParam.lifetime (secondLifetime gs) ∈ gs) := by
  constructor
  · intro hc
    cases gs with
    | nil => rfl
    | cons first rest =>
      have hrest : ∀ p ∈ rest, p.isLifetime = false := by
        cases hfl : first.isLifetime with
        | true =>
          cases first with
          | lifetime n =>
            rw [countLifetimes_cons_lifetime] at hc
            have hz : countLifetimes rest = 0 := by omega
            exact (countLifetimes_eq_zero_iff rest).mp hz
          | type n bs => simp [GenericParam.isLifetime] at hfl
          | const n => simp [GenericParam.isLifetime] at hfl
        | false =>
          have hw2 := hw
          simp [lifetimesFirst, hfl, List.all_eq_true] at hw2
          intro p hp
          simpa using hw2 p hp
      have htail := process_params_tail_of_no_lifetime rest hrest
      cases first <;> simp [process_generics, htail, isOkResult]
  · intro hc
    cases gs with
    | nil => simp [countLifetimes] at hc
    | cons first rest =>
      cases first with
      | type n bs =>
        exfalso
        simp [lifetimesFirst, GenericParam.isLifetime, List.all_eq_true] at hw
        have hz : countLifetimes (GenericParam.type n bs :: rest) = 0 := by
          rw [countLifetimes_cons_other (GenericParam.type n bs) rest rfl]
          refine (countLifetimes_eq_zero_iff rest).mpr ?_
          intro p hp
          simpa using hw p hp
        omega
      | const n =>
        exfalso
        simp [lifetimesFirst, GenericParam.isLifetime, List.all_eq_true] at hw
        have hz : countLifetimes (GenericParam.const n :: rest) = 0 := by
          rw [countLifetimes_cons_other (GenericParam.const n) rest rfl]
          refine (countLifetimes_eq_zero_iff rest).mpr ?_
          intro p hp
          simpa using hw p hp
        omega
      | lifetime a =>
        cases rest with
        | nil => simp [countLifetimes, List.filter, GenericParam.isLifetime] at hc
        | cons second rest2 =>
          cases second with
          | lifetime b =>
            constructor
            · simp [process_generics, process_params_tail, process_param,
                secondLifetime, List.filterMap]
            · simp [secondLifetime, List.filterMap]
          | type m bs =>
            exfalso
            simp [lifetimesFirst, GenericParam.isLifetime, List.all_eq_true] at hw
            have hz : countLifetimes (GenericParam.lifetime a ::
                GenericParam.type m bs :: rest2) = 1 := by
              rw [countLifetimes_cons_lifetime,
                countLifetimes_cons_other (GenericParam.type m bs) rest2 rfl]
              have : countLifetimes rest2 = 0 := by
                refine (countLifetimes_eq_zero_iff rest2).mpr ?_
                intro p hp
                simpa using hw p hp
              omega
            omega
          | const m =>
            exfalso
            simp [lifetimesFirst, GenericParam.isLifetime, List.all_eq_true] at hw
            have hz : countLifetimes (GenericParam.lifetime a ::
                GenericParam.const m :: rest2) = 1 := by
              rw [countLifetimes_cons_lifetime,
                countLifetimes_cons_other (GenericParam.const m) rest2 rfl]
              have : countLifetimes rest2 = 0 := by
                refine (countLifetimes_eq_zero_iff rest2).mpr ?_
                intro p hp
                simpa using hw p hp
              omega
            omega

/-- C7 witness: a declaration with two lifetime parameters is rejected with
the error located at the second one. -/
theorem reject_multi_lifetime_witness :
    process_generics [GenericParam.lifetime "a", GenericParam.lifetime "b"] =
      Except.error ⟨"b", lifetimeErrorMsg⟩ ∧
    GenericParam.lifetime "b" ∈
      [GenericParam.lifetime "a", GenericParam.lifetime "b"] := by
  have h := (reject_multi_lifetime
    [GenericParam.lifetime "a", GenericParam.lifetime "b"] (by decide)).2 (by decide)
  simpa [secondLifetime] using h

/-- C8.  Identity mapping for region-free declarations: with no lifetime
parameter the emitted implementation is at the static lifetime and its
associated `Static` type is the declared type itself (same name, same
argument list), and for a declaration with no generic parameters at all the
emitted lists are empty. -/
theorem region_free_identity (name : String) (gs : List GenericParam)
    (h : countLifetimes gs = 0) :
    ∃ toks, generate_impl name gs = Except.ok toks ∧
      toks.traitLifetime = static_lifetime ∧
      toks.typeName = name ∧
      toks.staticTypeArgs = toks.typeArgs ∧
      (gs = [] → toks.implGenerics = [] ∧ toks.typeArgs = []) := by
  have hall : ∀ p ∈ gs, p.isLifetime = false :=
    (countLifetimes_eq_zero_iff gs).mp h
  cases gs with
  | nil =>
    exact ⟨⟨[], static_lifetime, name, [], []⟩, rfl, rfl, rfl, rfl,
      fun _ => ⟨rfl, rfl⟩⟩
  | cons first rest =>
    have hfirst := hall first (List.mem_cons_self first rest)
    have hrest : ∀ p ∈ rest, p.isLifetime = false :=
      fun p hp => hall p (List.mem_cons_of_mem _ hp)
    have htail := process_params_tail_of_no_lifetime rest hrest
    cases first with
    | lifetime n => simp [GenericParam.isLifetime] at hfirst
    | type n bs =>
      refine ⟨⟨GenericParam.type n (bs ++ [static_type_bound]) ::
          rest.map addStaticBound, static_lifetime, name,
          (GenericParam.type n bs :: rest).map GenericParam.asArg,
          (GenericParam.type n bs :: rest).map GenericParam.asArg⟩,
        ?_, rfl, rfl, rfl, fun hnil => absurd hnil (by simp)⟩
      simp [generate_impl, process_generics, htail, GenericParam.asArg]
    | const n =>
      refine ⟨⟨GenericParam.const n :: rest.map addStaticBound, static_lifetime,
          name, (GenericParam.const n :: rest).map GenericParam.asArg,
          (GenericParam.const n :: rest).map GenericParam.asArg⟩,
        ?_, rfl, rfl, rfl, fun hnil => absurd hnil (by simp)⟩
      simp [generate_impl, process_generics, htail, GenericParam.asArg]

/-- C8 witness: a declaration with a single unconstrained type parameter
gets the identity mapping at the static lifetime. -/
theorem region_free_identity_witness :
    ∃ toks, generate_impl "S" [GenericParam.type "T" []] = Except.ok toks ∧
      toks.traitLifetime = static_lifetime ∧
      toks.typeName = "S" ∧
      toks.staticTypeArgs = toks.typeArgs ∧
      (([GenericParam.type "T" []] : List GenericParam) = [] →
        toks.implGenerics = [] ∧ toks.typeArgs = []) :=
  region_free_identity "S" [GenericParam.type "T" []] (by decide)

/-- C9.  Generator type-parameter constraints: in the emitted
implementation every retained type parameter carries the static bound in
the impl generics, and the original-type reference is instantiated with
exactly those (so constrained) binders — its argument list is the name list
of the impl generics. -/
theorem retained_type_params_static (name : String) (gs : List GenericParam)
    (toks : ImplTokens) (h : generate_impl name gs = Except.ok toks) :
    (∀ p ∈ toks.implGenerics, staticConstrained p) ∧
    toks.typeArgs = toks.implGenerics.map GenericParam.asArg := by
  cases hps : process_generics gs with
  | error e => simp [generate_impl, hps] at h
  | ok ps =>
    simp [generate_impl, hps] at h
    cases gs with
    | nil =>
      have hempty : ps = Params.empty := by
        simp [process_generics] at hps
        exact hps.symm
      subst hempty
      simp [h.symm, Params.empty]
    | cons first rest =>
      have hshape := process_generics_ok_shape first rest ps hps
      subst hshape
      constructor
      · intro p hp
        simp [h.symm] at hp
        rcases hp with hp | ⟨q, _, hq⟩
        · rw [hp]
          exact staticConstrained_addStaticBound first
        · rw [hq.symm]
          exact staticConstrained_addStaticBound q
      · simp [h.symm, asArg_addStaticBound, List.map_map]

/-- C9 witness: for a declaration with one unconstrained type parameter the
emitted original-type reference is instantiated with the binder that
carries the static bound in the impl generics. -/
theorem retained_type_params_static_witness :
    (["T"] : List String) =
      [GenericParam.type "T" [static_type_bound]].map GenericParam.asArg :=
  (retained_type_params_static "S" [GenericParam.type "T" []]
    ⟨[GenericParam.type "T" [static_type_bound]], static_lifetime, "S", ["T"], ["T"]⟩
    rfl).2

end Transient
